import Mathlib

/-!
Classwork4: the C++11/14 feature demonstration program.

A shallow embedding of `src/C++innovation2.cpp`.

* Standard output is one `String`, threaded through every routine: a routine
  that writes to `std::cout` is a function from the text written so far to the
  text written after it returns.
* `int` is the 32-bit two's-complement integer: values are `Int`, arithmetic
  reduces with `wrapInt`.
* `double` is a finite binary64 value, kept exactly as sign, integer mantissa
  and binary exponent, so that its textual rendering is computed on integers.
* The two sources of nondeterminism of a run, the moment at which the
  asynchronous task completes and the measured elapsed time, are the fields of
  `Run`.
-/

namespace Classwork4

/-! ## Integers and their rendering -/

/-- Two's-complement reduction of an integer to the range of a 32-bit `int`. -/
def wrapInt (z : Int) : Int := (z + 2147483648) % 4294967296 - 2147483648

/-- The values a 32-bit `int` can hold. -/
def InIntRange (z : Int) : Prop := -2147483648 ≤ z ∧ z ≤ 2147483647

instance decidableInIntRange (z : Int) : Decidable (InIntRange z) := by
  unfold InIntRange; infer_instance

/-- The character of a decimal digit `d < 10`. -/
def digitChar (d : Nat) : Char := Char.ofNat (48 + d)

/-- Decimal digits of `n`, most significant first, in front of `acc`. -/
def natDigitsAux : Nat → Nat → List Char → List Char
  | 0, _, acc => acc
  | fuel + 1, n, acc =>
    if n / 10 = 0 then digitChar (n % 10) :: acc
    else natDigitsAux fuel (n / 10) (digitChar (n % 10) :: acc)

/-- Decimal digits of `n`, most significant first; `0` is the single digit `0`. -/
def natDigits (n : Nat) : List Char := natDigitsAux (n + 1) n []

/-- The text `operator<<` writes for an `int`: decimal, `-` in front of a
negative value, no padding. -/
def showInt (i : Int) : String :=
  match i with
  | Int.ofNat n => String.mk (natDigits n)
  | Int.negSucc n => String.mk ('-' :: natDigits (n + 1))

/-- The value of a digit character (inverse of `digitChar` on digits). -/
def digitValue (c : Char) : Nat := c.toNat - 48

/-- The number a list of decimal digits denotes, most significant first. -/
def readDigits (ds : List Char) : Nat := ds.foldl (fun v c => 10 * v + digitValue c) 0

/-- The integer a rendering denotes: an optional leading `-`, then digits. -/
def readInt (s : String) : Int :=
  match s.data with
  | '-' :: ds => - (readDigits ds : Int)
  | ds => (readDigits ds : Int)

/-- A digit list: every character is the character of a digit below ten. -/
def IsDigits (ds : List Char) : Prop := ∀ c ∈ ds, ∃ d, d < 10 ∧ c = digitChar d

/-! ## Floating point values and their rendering -/

/-- A finite binary64 value, `(-1)^neg * mant * 2^exp`. -/
structure Double where
  neg : Bool
  mant : Nat
  exp : Int
deriving DecidableEq

/-- Numerator of the magnitude of a `Double` as a fraction of naturals. -/
def Double.num (d : Double) : Nat :=
  match d.exp with
  | Int.ofNat e => d.mant * 2 ^ e
  | Int.negSucc _ => d.mant

/-- Denominator of the magnitude of a `Double` as a fraction of naturals. -/
def Double.den (d : Double) : Nat :=
  match d.exp with
  | Int.ofNat _ => 1
  | Int.negSucc e => 2 ^ (e + 1)

/-- The number of times `den` can be multiplied by `b` and stay at most `num`. -/
def countUp (b : Nat) : Nat → Nat → Nat → Nat
  | 0, _, _ => 0
  | fuel + 1, num, den =>
    if den * b ≤ num then countUp b fuel num (den * b) + 1 else 0

/-- The number of times `num` has to be multiplied by `b` to reach `den`. -/
def countDown (b : Nat) : Nat → Nat → Nat → Nat
  | 0, _, _ => 0
  | fuel + 1, num, den =>
    if den ≤ num * b then 1 else countDown b fuel (num * b) den + 1

/-- The exponent `x` with `b^x ≤ num/den < b^(x+1)`, for a positive fraction. -/
def floorLog (b num den : Nat) : Int :=
  if den ≤ num then (countUp b num num den : Int) else -(countDown b den num den : Int)

/-- The integer nearest to `n / d`, a tie going to the even one. -/
def roundHalfEven (n d : Nat) : Nat :=
  let q := n / d
  let r := n % d
  if d < 2 * r then q + 1
  else if 2 * r = d ∧ q % 2 = 1 then q + 1
  else q

/-- The binary64 value nearest to the positive fraction `num / den` (normal
range): what a decimal floating literal denotes. -/
def nearestDouble (num den : Nat) : Double :=
  let e := floorLog 2 num den - 52
  let m :=
    match e with
    | Int.ofNat k => roundHalfEven num (den * 2 ^ k)
    | Int.negSucc k => roundHalfEven (num * 2 ^ (k + 1)) den
  if m = 2 ^ 53 then ⟨false, 2 ^ 52, e + 1⟩ else ⟨false, m, e⟩

/-- The fraction `num / den` rounded to `p` significant decimal digits: the
`p`-digit integer `m` and the decimal exponent `x` of its leading digit. -/
def sigDigits (p num den : Nat) : Nat × Int :=
  let x := floorLog 10 num den
  let m :=
    match (p : Int) - 1 - x with
    | Int.ofNat k => roundHalfEven (num * 10 ^ k) den
    | Int.negSucc k => roundHalfEven num (den * 10 ^ (k + 1))
  if m = 10 ^ p then (10 ^ (p - 1), x + 1) else (m, x)

/-- Drop the zeros at the end of a digit list. -/
def stripTrailingZeros (ds : List Char) : List Char :=
  (ds.reverse.dropWhile (fun c => c == '0')).reverse

/-- Integer part, then the fraction digits without their trailing zeros; the
decimal point is written only when a fraction digit remains. -/
def withFraction (ip fp : List Char) : List Char :=
  if stripTrailingZeros fp = [] then ip else ip ++ '.' :: stripTrailingZeros fp

/-- The exponent field of the scientific style: sign and at least two digits. -/
def exponentField (x : Int) : List Char :=
  let ds := natDigits x.natAbs
  'e' :: (if x < 0 then '-' else '+') :: (if ds.length < 2 then '0' :: ds else ds)

/-- The general (`%g`) conversion with precision `p ≥ 1`: round to `p`
significant digits; fixed style when the decimal exponent `x` satisfies
`-4 ≤ x < p`, scientific style otherwise; trailing zeros removed. -/
def formatGeneral (p : Nat) (d : Double) : String :=
  let sign : List Char := if d.neg then ['-'] else []
  if d.mant = 0 then String.mk (sign ++ ['0'])
  else
    let mx := sigDigits p d.num d.den
    let ds := natDigits mx.1
    let x := mx.2
    if x < -4 ∨ (p : Int) ≤ x then
      String.mk (sign ++ withFraction (ds.take 1) (ds.drop 1) ++ exponentField x)
    else if 0 ≤ x then
      String.mk (sign ++ withFraction (ds.take (x.toNat + 1)) (ds.drop (x.toNat + 1)))
    else
      String.mk (sign ++ withFraction ['0'] (List.replicate ((-x).toNat - 1) '0' ++ ds))

/-- The text `operator<<` writes for a `double` on a stream in its default
state: general conversion, precision 6. -/
def showDouble (d : Double) : String := formatGeneral 6 d

/-! ## Lines of text -/

/-- The lines of a text: each `'\n'` ends a line; characters after the last
`'\n'`, if any, form a last line. -/
def splitLines : List Char → List (List Char)
  | [] => []
  | c :: cs =>
    if c = '\n' then [] :: splitLines cs
    else
      match splitLines cs with
      | [] => [[c]]
      | l :: ls => (c :: l) :: ls

/-- The lines of a text, as strings. -/
def textLines (s : String) : List String := (splitLines s.data).map String.mk

/-- The texts of a list written one after the other. -/
def concatAll : List String → String
  | [] => ""
  | s :: ss => s ++ concatAll ss

/-- The text made of the given lines, each followed by a line break. -/
def unlines (ls : List String) : String := concatAll (ls.map (fun l => l ++ "\n"))

/-- A row's line as the specification words it: the decimal rendering of each
element in order, each followed by one space. -/
def rowLine (row : List Int) : String := concatAll (row.map (fun e => showInt e ++ " "))

/-! ## The routines of the program -/

/-- The manipulator `std::endl`: writes a line break (and flushes, which leaves the text as
it is). -/
def endl (out : String) : String := out ++ "\n"

/-- Routine `printMatrix`, lines 13-21. -/
def printMatrix (matrix : List (List Int)) (out : String) : String :=
  let out := endl (out ++ "Matrix:")
  matrix.foldl
    (fun out row =>
      let out := row.foldl (fun out elem => out ++ showInt elem ++ " ") out
      endl out)
    out

/-- Routine `lambdaExample`, lines 24-30: `std::for_each` applies the lambda to each
element from `begin` to `end`. -/
def lambdaExample (out : String) : String :=
  let vec : List Int := [1, 2, 3, 4, 5]
  let out := vec.foldl (fun out n => out ++ showInt n ++ " ") out
  endl out

/-- Routine `uniquePtrExample`, lines 33-36: `ptr` owns one `int` holding 10, read
through `*ptr`. -/
def uniquePtrExample (out : String) : String :=
  let ptr : Int := 10
  endl (out ++ "Unique Ptr value: " ++ showInt ptr)

/-- Routine `threadExample`, lines 39-45: the worker runs `hello` and the caller
waits in `join` until it has finished, so the worker's text is in the output
when the routine returns; the caller writes nothing meanwhile. -/
def threadExample (out : String) : String :=
  let hello := fun (out : String) => endl (out ++ "Hello from thread!")
  hello out

/-- The task lambda of `asyncFutureExample`, lines 49-51. -/
def asyncTask (x : Int) : Int := wrapInt (x * x)

/-- The shared state behind a `std::future<int>`: the task has either stored
its value already, or is still to produce it from its argument. -/
inductive Future where
  | ready (value : Int)
  | pending (task : Int → Int) (arg : Int)

/-- The call `std::async(std::launch::async, task, arg)`: the task starts on a thread
of its own; `done` tells whether it has completed by the time the caller asks
for the result. -/
def async (done : Bool) (task : Int → Int) (arg : Int) : Future :=
  if done then Future.ready (task arg) else Future.pending task arg

/-- The member `future::get`: waits until the value is stored, then returns it. -/
def Future.get : Future → Int
  | Future.ready v => v
  | Future.pending task arg => task arg

/-- Routine `asyncFutureExample`, lines 48-54. -/
def asyncFutureExample (done : Bool) (out : String) : String :=
  let result := async done asyncTask 5
  endl (out ++ "Async result: " ++ showInt result.get)

/-- The literal `3.14`: the binary64 value nearest to 314/100. -/
def lit_3_14 : Double := nearestDouble 314 100

/-- Routine `tupleExample`, lines 57-60: `std::get<0>`, `std::get<1>`, `std::get<2>`
are the three projections. -/
def tupleExample (out : String) : String :=
  let t : Int × String × Double := (1, "Hello", lit_3_14)
  endl (out ++ "Tuple values: " ++ showInt t.1 ++ ", " ++ t.2.1 ++ ", " ++ showDouble t.2.2)

/-- Routine `chronoExample`, lines 63-69: `elapsed` is the value of
`elapsed.count()`, the difference of the two clock readings in seconds. -/
def chronoExample (elapsed : Double) (out : String) : String :=
  endl (out ++ "Elapsed time: " ++ showDouble elapsed ++ " seconds")

/-- The lambda wrapped in `std::function<int(int, int)>`, lines 73-75. -/
def add (a b : Int) : Int := wrapInt (a + b)

/-- Routine `functionExample`, lines 72-77. -/
def functionExample (out : String) : String :=
  endl (out ++ "Function result: " ++ showInt (add 2 3))

/-- Routine `initializerListExample`, lines 80-86. -/
def initializerListExample (out : String) : String :=
  let vec : List Int := [1, 2, 3, 4, 5]
  let out := vec.foldl (fun out v => out ++ showInt v ++ " ") out
  endl out

/-- Routine `autoReturnTypeExample`, lines 89-91. -/
def autoReturnTypeExample : Int := 42

/-- The closure object of the lambda `[y = x + 1]() { ... }`, line 96: its
only member is the init-capture `y`. -/
structure CaptureLambda where
  y : Int

/-- Evaluating the lambda expression where the local is `x`: the capture is
initialised from `x + 1` at that point. -/
def CaptureLambda.make (x : Int) : CaptureLambda := ⟨wrapInt (x + 1)⟩

/-- The call operator of the closure, line 97. -/
def CaptureLambda.call (c : CaptureLambda) (out : String) : String :=
  endl (out ++ "Captured value: " ++ showInt c.y)

/-- Routine `generalizedLambdaCaptureExample`, lines 94-100. -/
def generalizedLambdaCaptureExample (out : String) : String :=
  let x : Int := 10
  let lambda := CaptureLambda.make x
  lambda.call out

/-- What varies from one run to another: whether the asynchronous task has
completed when its result is asked for, and the measured elapsed time. -/
structure Run where
  asyncDone : Bool
  elapsed : Double

/-- The grid `main` builds, lines 109-113. -/
def mainMatrix : List (List Int) := [[1, 2, 3], [4, 5, 6], [7, 8, 9]]

/-- A run in which the asynchronous task had completed when its result was
asked for and the one-second pause was measured as 1.000123456 s. -/
def sampleRun : Run := ⟨true, nearestDouble 1000123456 1000000000⟩

/-- Routine `main`, lines 102-149: the text written and the exit status. The two
expression statements of lines 105-106 have no effect. -/
def main (run : Run) (out : String) : String × Int :=
  let matrix := mainMatrix
  let out := printMatrix matrix out
  let out := lambdaExample out
  let out := uniquePtrExample out
  let out := threadExample out
  let out := asyncFutureExample run.asyncDone out
  let out := tupleExample out
  let out := chronoExample run.elapsed out
  let out := functionExample out
  let out := initializerListExample out
  let out := endl (out ++ "Auto return type result: " ++ showInt autoReturnTypeExample)
  let out := generalizedLambdaCaptureExample out
  (out, 0)

/-! ## Texts and lines -/

theorem concatAll_append (xs ys : List String) :
    concatAll (xs ++ ys) = concatAll xs ++ concatAll ys := by
  induction xs with
  | nil => simp [concatAll]
  | cons x xs ih => simp [concatAll, ih, String.append_assoc]

theorem unlines_cons (l : String) (ls : List String) :
    unlines (l :: ls) = l ++ "\n" ++ unlines ls := by
  simp [unlines, concatAll]

theorem splitLines_line (l rest : List Char) (h : '\n' ∉ l) :
    splitLines (l ++ '\n' :: rest) = l :: splitLines rest := by
  induction l with
  | nil => simp [splitLines]
  | cons c l ih =>
    have hc : c ≠ '\n' := fun e => h (by simp [e])
    have hl : '\n' ∉ l := fun m => h (List.mem_cons_of_mem _ m)
    simp [splitLines, hc, ih hl]

theorem textLines_unlines (ls : List String) (h : ∀ l ∈ ls, '\n' ∉ l.data) :
    textLines (unlines ls) = ls := by
  induction ls with
  | nil => rfl
  | cons l ls ih =>
    have h1 : '\n' ∉ l.data := h l (List.mem_cons_self _ _)
    have h2 : ∀ k ∈ ls, '\n' ∉ k.data := fun k hk => h k (List.mem_cons_of_mem _ hk)
    have ih2 := ih h2
    unfold textLines at ih2 ⊢
    rw [unlines_cons, String.append_assoc, String.data_append, String.data_append]
    have e : ("\n" : String).data = ['\n'] := rfl
    rw [e, List.singleton_append, splitLines_line _ _ h1, List.map_cons, ih2]

/-! ## The rendering of integers -/

theorem digitChar_ne_newline (d : Nat) (h : d < 10) : digitChar d ≠ '\n' := by
  interval_cases d <;> decide

theorem digitValue_digitChar (d : Nat) (h : d < 10) : digitValue (digitChar d) = d := by
  interval_cases d <;> decide

theorem digitChar_ne_minus (d : Nat) (h : d < 10) : digitChar d ≠ '-' := by
  interval_cases d <;> decide

theorem readDigits_snoc (ds : List Char) (c : Char) :
    readDigits (ds ++ [c]) = 10 * readDigits ds + digitValue c := by
  simp [readDigits, List.foldl_append]

/-- With enough fuel the digits of `n` are put in front of the accumulator:
a non-empty digit list that reads back as `n`. -/
theorem natDigitsAux_spec (fuel : Nat) : ∀ (n : Nat) (acc : List Char), n < fuel →
    ∃ ds, natDigitsAux fuel n acc = ds ++ acc ∧ ds ≠ [] ∧ IsDigits ds ∧ readDigits ds = n := by
  induction fuel with
  | zero => intro n acc h; omega
  | succ fuel ih =>
    intro n acc h
    have hm : n % 10 < 10 := Nat.mod_lt _ (by decide)
    by_cases hq : n / 10 = 0
    · refine ⟨[digitChar (n % 10)], by simp [natDigitsAux, hq], by simp, ?_, ?_⟩
      · intro c hc
        exact ⟨n % 10, hm, by simpa using hc⟩
      · have hn : n % 10 = n := by omega
        have hv := digitValue_digitChar _ hm
        rw [hn] at hv
        simp [readDigits, hn, hv]
    · obtain ⟨ds, e, _, hd, hr⟩ := ih (n / 10) (digitChar (n % 10) :: acc) (by omega)
      refine ⟨ds ++ [digitChar (n % 10)], by simp [natDigitsAux, hq, e], by simp, ?_, ?_⟩
      · intro c hc
        rcases List.mem_append.mp hc with h1 | h1
        · exact hd c h1
        · exact ⟨n % 10, hm, by simpa using h1⟩
      · rw [readDigits_snoc, hr, digitValue_digitChar _ hm]
        omega

theorem natDigits_spec (n : Nat) :
    natDigits n ≠ [] ∧ IsDigits (natDigits n) ∧ readDigits (natDigits n) = n := by
  obtain ⟨ds, e, hne, hd, hr⟩ := natDigitsAux_spec (n + 1) n [] (Nat.lt_succ_self n)
  have e2 : natDigits n = ds := by simpa [natDigits] using e
  rw [e2]
  exact ⟨hne, hd, hr⟩

theorem IsDigits.no_newline {ds : List Char} (h : IsDigits ds) : '\n' ∉ ds := by
  intro hm
  obtain ⟨d, hd, e⟩ := h _ hm
  exact digitChar_ne_newline d hd e.symm

theorem showInt_no_newline (i : Int) : '\n' ∉ (showInt i).data := by
  cases i with
  | ofNat n => exact (natDigits_spec n).2.1.no_newline
  | negSucc n =>
    intro hm
    simp only [showInt, List.mem_cons] at hm
    rcases hm with h | h
    · exact absurd h (by decide)
    · exact (natDigits_spec (n + 1)).2.1.no_newline h

/-- Reading back the rendering of an integer gives the integer: the rendering
is its decimal notation. -/
theorem readInt_showInt (i : Int) : readInt (showInt i) = i := by
  cases i with
  | ofNat n =>
    obtain ⟨hne, hd, hr⟩ := natDigits_spec n
    simp only [showInt, readInt]
    cases hds : natDigits n with
    | nil => exact absurd hds hne
    | cons c cs =>
      have hc : c ≠ '-' := by
        obtain ⟨d, hd10, e⟩ := hd c (by simp [hds])
        rw [e]; exact digitChar_ne_minus d hd10
      rw [hds] at hr
      split
      · rename_i ds heq
        simp only [List.cons.injEq] at heq
        exact absurd heq.1 hc
      · simp [hr]
  | negSucc n =>
    obtain ⟨_, _, hr⟩ := natDigits_spec (n + 1)
    simp only [showInt, readInt, hr]
    rfl

/-! ## The rendering of floating point values -/

theorem natDigits_no_newline (n : Nat) : '\n' ∉ natDigits n :=
  (natDigits_spec n).2.1.no_newline

theorem mem_stripTrailingZeros {c : Char} {ds : List Char}
    (h : c ∈ stripTrailingZeros ds) : c ∈ ds := by
  unfold stripTrailingZeros at h
  have h1 := (List.dropWhile_sublist _).subset (List.mem_reverse.mp h)
  exact List.mem_reverse.mp h1

theorem withFraction_no_newline {ip fp : List Char} (hi : '\n' ∉ ip) (hf : '\n' ∉ fp) :
    '\n' ∉ withFraction ip fp := by
  unfold withFraction
  split
  · exact hi
  · intro hm
    rcases List.mem_append.mp hm with h | h
    · exact hi h
    · rcases List.mem_cons.mp h with h | h
      · exact absurd h (by decide)
      · exact hf (mem_stripTrailingZeros h)

theorem exponentField_no_newline (x : Int) : '\n' ∉ exponentField x := by
  have hd := natDigits_no_newline x.natAbs
  unfold exponentField
  intro hm
  simp only [List.mem_cons] at hm
  rcases hm with h | h | h
  · exact absurd h (by decide)
  · split at h <;> exact absurd h (by decide)
  · split at h
    · rcases List.mem_cons.mp h with h | h
      · exact absurd h (by decide)
      · exact hd h
    · exact hd h

theorem sign_no_newline (b : Bool) : '\n' ∉ (if b then ['-'] else [] : List Char) := by
  cases b <;> decide

theorem formatGeneral_no_newline (p : Nat) (d : Double) :
    '\n' ∉ (formatGeneral p d).data := by
  have hs := sign_no_newline d.neg
  have hds := natDigits_no_newline (sigDigits p d.num d.den).1
  unfold formatGeneral
  simp only
  split
  · intro hm
    rcases List.mem_append.mp hm with h | h
    · exact hs h
    · exact absurd h (by decide)
  · split
    · intro hm
      rcases List.mem_append.mp hm with h | h
      · rcases List.mem_append.mp h with h | h
        · exact hs h
        · exact withFraction_no_newline (fun m => hds (List.mem_of_mem_take m))
            (fun m => hds (List.mem_of_mem_drop m)) h
      · exact exponentField_no_newline _ h
    · split
      · intro hm
        rcases List.mem_append.mp hm with h | h
        · exact hs h
        · exact withFraction_no_newline (fun m => hds (List.mem_of_mem_take m))
            (fun m => hds (List.mem_of_mem_drop m)) h
      · intro hm
        rcases List.mem_append.mp hm with h | h
        · exact hs h
        · refine withFraction_no_newline (by decide) ?_ h
          intro m
          rcases List.mem_append.mp m with h2 | h2
          · exact absurd (List.mem_replicate.mp h2).2 (by decide)
          · exact hds h2

theorem showDouble_no_newline (d : Double) : '\n' ∉ (showDouble d).data :=
  formatGeneral_no_newline 6 d

/-! ## What each routine writes -/

theorem unlines_append (xs ys : List String) :
    unlines (xs ++ ys) = unlines xs ++ unlines ys := by
  simp [unlines, concatAll_append]

theorem unlines_single (l : String) : unlines [l] = l ++ "\n" := by
  simp [unlines, concatAll]

theorem foldl_row (row : List Int) : ∀ out : String,
    row.foldl (fun out elem => out ++ showInt elem ++ " ") out = out ++ rowLine row := by
  induction row with
  | nil => intro out; simp [rowLine, concatAll]
  | cons e row ih =>
    intro out
    rw [List.foldl_cons, ih]
    simp only [rowLine, List.map_cons, concatAll, String.append_assoc]

theorem foldl_rows (matrix : List (List Int)) : ∀ out : String,
    matrix.foldl
      (fun out row => endl (row.foldl (fun out elem => out ++ showInt elem ++ " ") out)) out
      = out ++ unlines (matrix.map rowLine) := by
  induction matrix with
  | nil => intro out; simp [unlines, concatAll]
  | cons row matrix ih =>
    intro out
    rw [List.foldl_cons, ih, foldl_row]
    simp only [endl, List.map_cons, unlines_cons, String.append_assoc]

theorem printMatrix_eq (matrix : List (List Int)) (out : String) :
    printMatrix matrix out = out ++ unlines ("Matrix:" :: matrix.map rowLine) := by
  simp only [printMatrix, foldl_rows]
  simp only [endl, unlines_cons, String.append_assoc]

theorem rowLine_no_newline (row : List Int) : '\n' ∉ (rowLine row).data := by
  induction row with
  | nil => simp [rowLine, concatAll]
  | cons e row ih =>
    simp only [rowLine] at ih
    simp only [rowLine, List.map_cons, concatAll, String.data_append, List.mem_append, not_or]
    exact ⟨⟨showInt_no_newline e, by decide⟩, ih⟩

theorem lambdaExample_eq (out : String) : lambdaExample out = out ++ "1 2 3 4 5 \n" := by
  have e : rowLine [1, 2, 3, 4, 5] ++ "\n" = "1 2 3 4 5 \n" := by decide
  simp only [lambdaExample, foldl_row]
  simp only [endl, String.append_assoc, e]

theorem initializerListExample_eq (out : String) :
    initializerListExample out = out ++ "1 2 3 4 5 \n" := by
  have e : rowLine [1, 2, 3, 4, 5] ++ "\n" = "1 2 3 4 5 \n" := by decide
  simp only [initializerListExample, foldl_row]
  simp only [endl, String.append_assoc, e]

theorem uniquePtrExample_eq (out : String) :
    uniquePtrExample out = out ++ "Unique Ptr value: 10\n" := by
  have e : "Unique Ptr value: " ++ (showInt 10 ++ "\n") = "Unique Ptr value: 10\n" := by decide
  simp only [uniquePtrExample, endl, String.append_assoc, e]

theorem threadExample_eq (out : String) :
    threadExample out = out ++ "Hello from thread!\n" := by
  have e : "Hello from thread!" ++ "\n" = "Hello from thread!\n" := by decide
  simp only [threadExample, endl, String.append_assoc, e]

theorem async_get (done : Bool) (task : Int → Int) (arg : Int) :
    (async done task arg).get = task arg := by
  cases done <;> rfl

theorem asyncFutureExample_eq (done : Bool) (out : String) :
    asyncFutureExample done out = out ++ "Async result: 25\n" := by
  have e : "Async result: " ++ (showInt (asyncTask 5) ++ "\n") = "Async result: 25\n" := by
    decide
  simp only [asyncFutureExample, async_get, endl, String.append_assoc, e]

theorem tupleExample_eq (out : String) :
    tupleExample out = out ++ "Tuple values: 1, Hello, 3.14\n" := by
  have e : "Tuple values: " ++ (showInt 1 ++ (", " ++ ("Hello" ++ (", " ++
      (showDouble lit_3_14 ++ "\n"))))) = "Tuple values: 1, Hello, 3.14\n" := by decide
  simp only [tupleExample, endl, String.append_assoc, e]

theorem chronoExample_eq (elapsed : Double) (out : String) :
    chronoExample elapsed out
      = out ++ unlines ["Elapsed time: " ++ showDouble elapsed ++ " seconds"] := by
  simp only [chronoExample, endl, unlines_single, String.append_assoc]

theorem functionExample_eq (out : String) :
    functionExample out = out ++ "Function result: 5\n" := by
  have e : "Function result: " ++ (showInt (add 2 3) ++ "\n") = "Function result: 5\n" := by
    decide
  simp only [functionExample, endl, String.append_assoc, e]

theorem autoReturn_eq (out : String) :
    endl (out ++ "Auto return type result: " ++ showInt autoReturnTypeExample)
      = out ++ "Auto return type result: 42\n" := by
  have e : "Auto return type result: " ++ (showInt autoReturnTypeExample ++ "\n")
      = "Auto return type result: 42\n" := by decide
  simp only [endl, String.append_assoc, e]

theorem generalizedLambdaCaptureExample_eq (out : String) :
    generalizedLambdaCaptureExample out = out ++ "Captured value: 11\n" := by
  have e : "Captured value: " ++ (showInt (CaptureLambda.make 10).y ++ "\n")
      = "Captured value: 11\n" := by decide
  simp only [generalizedLambdaCaptureExample, CaptureLambda.call, endl, String.append_assoc, e]

theorem printMatrix_mainMatrix (out : String) :
    printMatrix mainMatrix out = out ++ "Matrix:\n1 2 3 \n4 5 6 \n7 8 9 \n" := by
  have e : unlines ("Matrix:" :: mainMatrix.map rowLine)
      = "Matrix:\n1 2 3 \n4 5 6 \n7 8 9 \n" := by decide
  rw [printMatrix_eq, e]

theorem wrapInt_of_inRange (z : Int) (h : InIntRange z) : wrapInt z = z := by
  unfold InIntRange at h
  unfold wrapInt
  omega

theorem main_eq (run : Run) (out : String) :
    (main run out).1 = out ++ unlines
      ["Matrix:", "1 2 3 ", "4 5 6 ", "7 8 9 ",
       "1 2 3 4 5 ",
       "Unique Ptr value: 10",
       "Hello from thread!",
       "Async result: 25",
       "Tuple values: 1, Hello, 3.14",
       "Elapsed time: " ++ showDouble run.elapsed ++ " seconds",
       "Function result: 5",
       "1 2 3 4 5 ",
       "Auto return type result: 42",
       "Captured value: 11"] := by
  have e1 : "Matrix:\n1 2 3 \n4 5 6 \n7 8 9 \n" ++ ("1 2 3 4 5 \n" ++
      ("Unique Ptr value: 10\n" ++ ("Hello from thread!\n" ++ ("Async result: 25\n" ++
      "Tuple values: 1, Hello, 3.14\n"))))
      = unlines ["Matrix:", "1 2 3 ", "4 5 6 ", "7 8 9 ", "1 2 3 4 5 ", "Unique Ptr value: 10",
          "Hello from thread!", "Async result: 25", "Tuple values: 1, Hello, 3.14"] := by
    decide
  have e2 : "Function result: 5\n" ++ ("1 2 3 4 5 \n" ++ ("Auto return type result: 42\n" ++
      "Captured value: 11\n"))
      = unlines ["Function result: 5", "1 2 3 4 5 ", "Auto return type result: 42",
          "Captured value: 11"] := by
    decide
  have split : ∀ l : String,
      unlines ["Matrix:", "1 2 3 ", "4 5 6 ", "7 8 9 ", "1 2 3 4 5 ", "Unique Ptr value: 10",
          "Hello from thread!", "Async result: 25", "Tuple values: 1, Hello, 3.14", l,
          "Function result: 5", "1 2 3 4 5 ", "Auto return type result: 42",
          "Captured value: 11"]
      = unlines ["Matrix:", "1 2 3 ", "4 5 6 ", "7 8 9 ", "1 2 3 4 5 ", "Unique Ptr value: 10",
          "Hello from thread!", "Async result: 25", "Tuple values: 1, Hello, 3.14"]
        ++ (unlines [l] ++ unlines ["Function result: 5", "1 2 3 4 5 ",
          "Auto return type result: 42", "Captured value: 11"]) := by
    intro l
    rw [← unlines_append, ← unlines_append]
    rfl
  rw [split, ← e1, ← e2]
  simp only [main, printMatrix_mainMatrix, lambdaExample_eq, uniquePtrExample_eq,
    threadExample_eq, asyncFutureExample_eq, tupleExample_eq, chronoExample_eq,
    functionExample_eq, initializerListExample_eq, autoReturn_eq,
    generalizedLambdaCaptureExample_eq]
  simp only [String.append_assoc]

/-! ## The value of the literal `3.14` and sample renderings -/

/-- The mantissa and exponent of the literal `3.14`; the mantissa has 53
bits and the value is within half a unit in the last place of 314/100. -/
theorem lit_3_14_value :
    lit_3_14 = ⟨false, 7070651414971679, -51⟩ ∧
    2 ^ 52 ≤ 7070651414971679 ∧ 7070651414971679 < 2 ^ 53 ∧
    2 * (100 * 7070651414971679 - 314 * 2 ^ 51) ≤ 100 ∧ 314 * 2 ^ 51 ≤ 100 * 7070651414971679 := by
  decide

/-- Renderings of sample values in the default stream format: fixed and
scientific style, ties to even, trailing zeros dropped. -/
theorem showDouble_samples :
    showDouble ⟨false, 1, 0⟩ = "1" ∧
    showDouble ⟨true, 5, -1⟩ = "-2.5" ∧
    showDouble (nearestDouble 1 10) = "0.1" ∧
    showDouble ⟨false, 200001, -1⟩ = "100000" ∧
    showDouble ⟨false, 200003, -1⟩ = "100002" ∧
    showDouble ⟨false, 2000001, -1⟩ = "1e+06" ∧
    showDouble ⟨false, 123456789, 0⟩ = "1.23457e+08" ∧
    showDouble (nearestDouble 123456 1000000000) = "0.000123456" ∧
    showDouble (nearestDouble 15 1000000) = "1.5e-05" ∧
    showDouble sampleRun.elapsed = "1.00012" := by
  decide

/-! ## The claims -/

/-- C1 (as written): the text `printMatrix` writes for the grid
{{1,2,3},{4,5,6},{7,8,9}} is not "1 2 3\n4 5 6\n7 8 9\n": the routine also
writes a header line and a space after the last element of each row. -/
theorem printMatrix_grid_not_bare_rows :
    printMatrix [[1, 2, 3], [4, 5, 6], [7, 8, 9]] "" ≠ "1 2 3\n4 5 6\n7 8 9\n" := by
  decide

/-- C1 (amended): `printMatrix` applied to the grid {{1,2,3},{4,5,6},{7,8,9}}
appends exactly "Matrix:\n1 2 3 \n4 5 6 \n7 8 9 \n" to the output: the four
lines "Matrix:", "1 2 3 ", "4 5 6 ", "7 8 9 ". -/
theorem printMatrix_grid_output (out : String) :
    printMatrix [[1, 2, 3], [4, 5, 6], [7, 8, 9]] out
      = out ++ "Matrix:\n1 2 3 \n4 5 6 \n7 8 9 \n" ∧
    textLines (printMatrix [[1, 2, 3], [4, 5, 6], [7, 8, 9]] "")
      = ["Matrix:", "1 2 3 ", "4 5 6 ", "7 8 9 "] :=
  ⟨printMatrix_mainMatrix out, by decide⟩

/-- C2 (as written): on the run `sampleRun` the program writes fourteen lines,
not seventeen. -/
theorem main_sampleRun_not_seventeen_lines :
    (textLines (main sampleRun "").1).length = 14 ∧
    (textLines (main sampleRun "").1).length ≠ 17 := by
  decide

/-- C2 (amended): on every run the program writes exactly fourteen
newline-terminated lines: nine lines in addition to the grid's three row lines
and the two five-element sequence lines. -/
theorem main_writes_fourteen_lines (run : Run) :
    textLines (main run "").1 =
      ["Matrix:", "1 2 3 ", "4 5 6 ", "7 8 9 ",
       "1 2 3 4 5 ",
       "Unique Ptr value: 10",
       "Hello from thread!",
       "Async result: 25",
       "Tuple values: 1, Hello, 3.14",
       "Elapsed time: " ++ showDouble run.elapsed ++ " seconds",
       "Function result: 5",
       "1 2 3 4 5 ",
       "Auto return type result: 42",
       "Captured value: 11"] ∧
    (main run "").1 = unlines (textLines (main run "").1) ∧
    (textLines (main run "").1).length = 14 := by
  have hl : textLines (main run "").1 =
      ["Matrix:", "1 2 3 ", "4 5 6 ", "7 8 9 ", "1 2 3 4 5 ", "Unique Ptr value: 10",
       "Hello from thread!", "Async result: 25", "Tuple values: 1, Hello, 3.14",
       "Elapsed time: " ++ showDouble run.elapsed ++ " seconds",
       "Function result: 5", "1 2 3 4 5 ", "Auto return type result: 42",
       "Captured value: 11"] := by
    rw [main_eq, String.empty_append]
    apply textLines_unlines
    intro l hl
    simp only [List.mem_cons, List.mem_singleton, List.not_mem_nil, or_false] at hl
    have hd := showDouble_no_newline run.elapsed
    rcases hl with h | h | h | h | h | h | h | h | h | h | h | h | h | h <;> subst h
    case inr.inr.inr.inr.inr.inr.inr.inr.inr.inl =>
      simp only [String.data_append, List.mem_append, not_or]
      exact ⟨⟨by decide, hd⟩, by decide⟩
    all_goals decide
  refine ⟨hl, ?_, ?_⟩
  · rw [hl, main_eq, String.empty_append]
  · rw [hl]; rfl

/-- C3: `lambdaExample` appends exactly "1 2 3 4 5 " (each element of
{1,2,3,4,5} followed by one space, the last included) and one line break. -/
theorem lambdaExample_output (out : String) :
    lambdaExample out = out ++ "1 2 3 4 5 " ++ "\n" ∧
    textLines (lambdaExample "") = ["1 2 3 4 5 "] := by
  refine ⟨?_, by decide⟩
  rw [lambdaExample_eq, String.append_assoc]
  rfl

/-- C4: whether or not the task has finished when the result is asked for,
the future yields the task's value at 5, which is 25, and
`asyncFutureExample` appends exactly the line "Async result: 25". -/
theorem asyncFutureExample_output (done : Bool) (out : String) :
    (async done asyncTask 5).get = asyncTask 5 ∧
    asyncTask 5 = 25 ∧
    asyncFutureExample done out = out ++ "Async result: 25\n" :=
  ⟨async_get done asyncTask 5, by decide, asyncFutureExample_eq done out⟩

/-- C5: the wrapped callable `add` returns `a + b` whenever the sum is an
`int`, it returns 5 for (2, 3), and `functionExample` appends exactly the line
"Function result: 5". -/
theorem functionExample_output (a b : Int) (h : InIntRange (a + b)) (out : String) :
    add a b = a + b ∧
    add 2 3 = 5 ∧
    functionExample out = out ++ "Function result: 5\n" :=
  ⟨wrapInt_of_inRange (a + b) h, by decide, functionExample_eq out⟩

/-- C5, at the arguments the routine passes. -/
theorem functionExample_output_witness :
    InIntRange (2 + 3) ∧
    (add 2 3 = 2 + 3 ∧ add 2 3 = 5 ∧ functionExample "" = "" ++ "Function result: 5\n") :=
  ⟨by decide, functionExample_output 2 3 (by decide) ""⟩

/-- C6: `tupleExample` reads the fields of (1, "Hello", 3.14) by position
0, 1, 2 and appends exactly the line "Tuple values: 1, Hello, 3.14"; the
floating point field, the binary64 value nearest to 3.14, is rendered "3.14". -/
theorem tupleExample_output (out : String) :
    tupleExample out = out ++ "Tuple values: 1, Hello, 3.14\n" ∧
    tupleExample out
      = out ++ "Tuple values: " ++ showInt 1 ++ ", " ++ "Hello" ++ ", " ++ showDouble lit_3_14
          ++ "\n" ∧
    showInt 1 = "1" ∧
    showDouble lit_3_14 = "3.14" :=
  ⟨tupleExample_eq out, rfl, by decide, by decide⟩

/-- C7: on every run `main` returns, and what it returns is its fourteen
lines of text together with exit status 0: no run ends with another status. -/
theorem main_exit_status (run : Run) (out : String) :
    (main run out).2 = 0 ∧
    main run out =
      (out ++ unlines
        ["Matrix:", "1 2 3 ", "4 5 6 ", "7 8 9 ",
         "1 2 3 4 5 ",
         "Unique Ptr value: 10",
         "Hello from thread!",
         "Async result: 25",
         "Tuple values: 1, Hello, 3.14",
         "Elapsed time: " ++ showDouble run.elapsed ++ " seconds",
         "Function result: 5",
         "1 2 3 4 5 ",
         "Auto return type result: 42",
         "Captured value: 11"], 0) := by
  refine ⟨rfl, ?_⟩
  exact Prod.ext (main_eq run out) rfl

/-- C8: the output of `main` is the concatenation, in this order, of what each
of the eleven routines writes on its own: grid printer, sequence demo,
exclusive-ownership demo, thread demo, asynchronous-result demo, tuple demo,
timing demo, function-wrapper demo, list-initialization demo, the line
"Auto return type result: 42" for the derived-return demo, generalized-capture
demo. -/
theorem main_output_concatenation (run : Run) (out : String) :
    (main run out).1 =
      out ++ printMatrix [[1, 2, 3], [4, 5, 6], [7, 8, 9]] ""
        ++ lambdaExample ""
        ++ uniquePtrExample ""
        ++ threadExample ""
        ++ asyncFutureExample run.asyncDone ""
        ++ tupleExample ""
        ++ chronoExample run.elapsed ""
        ++ functionExample ""
        ++ initializerListExample ""
        ++ "Auto return type result: 42\n"
        ++ generalizedLambdaCaptureExample "" ∧
    autoReturnTypeExample = 42 := by
  refine ⟨?_, rfl⟩
  have hm : printMatrix [[1, 2, 3], [4, 5, 6], [7, 8, 9]] ""
      = "Matrix:\n1 2 3 \n4 5 6 \n7 8 9 \n" := by decide
  rw [hm]
  simp only [main, printMatrix_mainMatrix, lambdaExample_eq, uniquePtrExample_eq,
    threadExample_eq, asyncFutureExample_eq, tupleExample_eq, chronoExample_eq,
    functionExample_eq, initializerListExample_eq, autoReturn_eq,
    generalizedLambdaCaptureExample_eq]
  simp only [String.append_assoc, String.empty_append]

/-- C9: the closure holds the local plus one from the moment it is
constructed (for every local `x` such that `x + 1` is an `int`) and its call
writes that value; with `x = 10` it holds 11 and
`generalizedLambdaCaptureExample` appends exactly the line
"Captured value: 11". -/
theorem generalizedLambdaCaptureExample_output (x : Int) (h : InIntRange (x + 1))
    (out : String) :
    (CaptureLambda.make x).y = x + 1 ∧
    (CaptureLambda.make x).call out = out ++ "Captured value: " ++ showInt (x + 1) ++ "\n" ∧
    (CaptureLambda.make 10).y = 11 ∧
    generalizedLambdaCaptureExample out = out ++ "Captured value: 11\n" := by
  have hy : (CaptureLambda.make x).y = x + 1 := wrapInt_of_inRange (x + 1) h
  refine ⟨hy, ?_, by decide, generalizedLambdaCaptureExample_eq out⟩
  rw [CaptureLambda.call, hy]
  rfl

/-- C9, at the local the routine declares. -/
theorem generalizedLambdaCaptureExample_output_witness :
    InIntRange (10 + 1) ∧
    ((CaptureLambda.make 10).y = 10 + 1 ∧
     (CaptureLambda.make 10).call "" = "" ++ "Captured value: " ++ showInt (10 + 1) ++ "\n" ∧
     (CaptureLambda.make 10).y = 11 ∧
     generalizedLambdaCaptureExample "" = "" ++ "Captured value: 11\n") :=
  ⟨by decide, generalizedLambdaCaptureExample_output 10 (by decide) ""⟩

/-- C10: for every matrix, `printMatrix` appends the header line "Matrix:"
and then one line per row, in row order, a row's line being the decimal
rendering of each element in order, each followed by one space; the lines of
its output are that header and those row lines, one more than there are rows,
each ended by a line break, and the line of an empty row is empty. -/
theorem printMatrix_lines (matrix : List (List Int)) (out : String) :
    printMatrix matrix out = out ++ unlines ("Matrix:" :: matrix.map rowLine) ∧
    textLines (printMatrix matrix "") = "Matrix:" :: matrix.map rowLine ∧
    (textLines (printMatrix matrix "")).length = matrix.length + 1 ∧
    rowLine [] = "" ∧
    (∀ e : Int, readInt (showInt e) = e) := by
  have hl : textLines (printMatrix matrix "") = "Matrix:" :: matrix.map rowLine := by
    rw [printMatrix_eq, String.empty_append]
    apply textLines_unlines
    intro l hl
    rcases List.mem_cons.mp hl with h | h
    · subst h; decide
    · obtain ⟨row, _, e⟩ := List.mem_map.mp h
      subst e
      exact rowLine_no_newline row
  refine ⟨printMatrix_eq matrix out, hl, ?_, rfl, readInt_showInt⟩
  rw [hl]
  simp

end Classwork4
